import Mathlib

/-!
# A verification model of the xdggs DGGS indexing layer

The repository ships only usage notebooks; the library itself (GridInfo,
SchemeAdapter, CellIndex, the `decode` facade) is described by the design
specification.  Every definition below is therefore modelled from the spec:
grids are rectangular tessellations of the sphere in degree coordinates
(rationals stand in for the real-valued degrees), with one scheme variant per
supported grid family, a validated grid-description value object, a custom
cell index over a dataset, and the `decode` entry point.
-/

/-- Modelled from the spec: the closed set of error kinds listed in the
error-handling design (§7). -/
inductive DggsError where
  | InvalidGridAttributes
  | InvalidLevel
  | InvalidCellId (positions : List Nat)
  | UnsupportedConversion
  | KeyNotFound (ids : List Nat)
  | ShapeMismatch
  | IncompatibleGrid
  | MissingGridAttributes
deriving DecidableEq

/-- Modelled from the spec: the closed set of supported grid families
(`H3-like`, `HEALPix-like`), one tagged variant per scheme (§9). -/
inductive GridScheme where
  | h3
  | healpix
deriving DecidableEq

/-- Modelled from the spec: the two numbering conventions a scheme may
define (`ring`, `nested`) (§3). -/
inductive IndexingScheme where
  | ring
  | nested
deriving DecidableEq

/-- Short grid name used in the attribute mapping (`grid_name`). -/
def GridScheme.gridName : GridScheme → String
  | .h3 => "h3"
  | .healpix => "healpix"

/-- Attribute-mapping spelling of a numbering convention. -/
def IndexingScheme.schemeName : IndexingScheme → String
  | .ring => "ring"
  | .nested => "nested"

/-- Modelled from the spec: each scheme supports a bounded range of
hierarchical levels (§3, §4.2). -/
def maxLevel : GridScheme → Nat
  | .h3 => 15
  | .healpix => 29

/-- Number of latitude rows of the model tessellation at a level.  The
HEALPix-like scheme subdivides each of 12 base cells into 4 per level
(3·2^l rows by 4·2^l columns); the H3-like scheme subdivides each of 122
base cells into 7 per level (2·7^l rows by 61 columns). -/
def nrows : GridScheme → Nat → Nat
  | .healpix, l => 3 * 2 ^ l
  | .h3, l => 2 * 7 ^ l

/-- Number of longitude columns of the model tessellation at a level. -/
def ncols : GridScheme → Nat → Nat
  | .healpix, l => 4 * 2 ^ l
  | .h3, _ => 61

/-- Total number of cells of a scheme at a level (12·4^l for the
HEALPix-like scheme, 122·7^l for the H3-like scheme). -/
def numCells (s : GridScheme) (l : Nat) : Nat := nrows s l * ncols s l

/-- Normalize a longitude in degrees into the fundamental domain
[0, 360), so that both antimeridian spellings (180 and -180) of a seam
point name the same column. -/
def lonNormalize (lon : ℚ) : ℚ := lon - 360 * ⌊lon / 360⌋

/-- Point-to-cell resolution on the raw row-major rectangular layout.
Both poles collapse to a single well-defined cell each (row 0 column 0,
respectively last row column 0), never an undefined value. -/
def rectPointToCell (rows cols : Nat) (lat lon : ℚ) : Nat :=
  if 90 ≤ lat then 0
  else if lat ≤ -90 then (rows - 1) * cols
  else
    let row := (⌊(90 - lat) / 180 * rows⌋).toNat
    let col := (⌊lonNormalize lon / 360 * cols⌋).toNat
    row * cols + col

/-- Center of a cell of the raw row-major rectangular layout, in degrees. -/
def rectCellToCenter (rows cols id : Nat) : ℚ × ℚ :=
  (90 - ((id / cols : Nat) + 1 / 2) / rows * 180,
   ((id % cols : Nat) + 1 / 2) / cols * 360)

/-- Translate a cell id of the given numbering convention into the
canonical (nested/row-major) id.  Modelled from the spec: only the
HEALPix-like scheme defines a second (`ring`) convention (§4.2). -/
def toCanonical (s : GridScheme) (num : IndexingScheme) (l : Nat) (id : Nat) : Nat :=
  match s, num with
  | .healpix, .ring => numCells .healpix l - 1 - id
  | _, _ => id

/-- Translate a canonical (nested/row-major) cell id into the given
numbering convention; inverse of `toCanonical`. -/
def fromCanonical (s : GridScheme) (num : IndexingScheme) (l : Nat) (id : Nat) : Nat :=
  match s, num with
  | .healpix, .ring => numCells .healpix l - 1 - id
  | _, _ => id

/-- Modelled from the spec: `point_to_cell(lat, lon, level, numbering)`,
deterministic resolution of a geographic point to the enclosing cell id
(§4.2). -/
def point_to_cell (s : GridScheme) (lat lon : ℚ) (l : Nat) (num : IndexingScheme) : Nat :=
  fromCanonical s num l (rectPointToCell (nrows s l) (ncols s l) lat lon)

/-- Modelled from the spec: per-element cell-id validity under the
scheme/level (§4.2 `validate`). -/
def validateCell (s : GridScheme) (l : Nat) (id : Nat) : Bool := id < numCells s l

/-- Modelled from the spec: vectorized `validate(cell_ids, level)` (§4.2). -/
def validate (s : GridScheme) (l : Nat) (ids : List Nat) : List Bool :=
  ids.map (validateCell s l)

/-- Modelled from the spec: `cell_to_center(cell_id) -> (lat, lon)` (§4.2). -/
def cell_to_center (s : GridScheme) (l : Nat) (num : IndexingScheme) (id : Nat) : ℚ × ℚ :=
  rectCellToCenter (nrows s l) (ncols s l) (toCanonical s num l id)

/-- Modelled from the spec: the batched (vectorized) form of
`point_to_cell`, mapped element-wise over a point sequence (§5). -/
def point_to_cell_batch (s : GridScheme) (pts : List (ℚ × ℚ)) (l : Nat)
    (num : IndexingScheme) : List Nat :=
  pts.map fun p => point_to_cell s p.1 p.2 l num

/-- Modelled from the spec: `convert_numbering(cell_ids, from, to)`; only
the HEALPix-like scheme defines multiple numbering conventions, every
other scheme fails with `UnsupportedConversion` (§4.2). -/
def convert_numbering (s : GridScheme) (l : Nat) (ids : List Nat)
    (a b : IndexingScheme) : Except DggsError (List Nat) :=
  match s with
  | .h3 => .error .UnsupportedConversion
  | .healpix => .ok (ids.map fun id => fromCanonical .healpix b l (toCanonical .healpix a l id))

/-- Modelled from the spec: immutable, validated description of one grid
instantiation — scheme, hierarchical level, numbering convention (§3).
Equality is structural. -/
structure GridInfo where
  scheme : GridScheme
  level : Nat
  numbering : Option IndexingScheme
deriving DecidableEq

/-- Modelled from the spec: a GridInfo is valid when its level lies in the
scheme's supported range and a numbering convention is recorded exactly
for the schemes that define several of them (§3). -/
def GridInfo.Valid (g : GridInfo) : Prop :=
  g.level ≤ maxLevel g.scheme ∧ (g.numbering.isSome ↔ g.scheme = .healpix)

instance (g : GridInfo) : Decidable g.Valid := by
  unfold GridInfo.Valid; infer_instance

/-- Modelled from the spec: the flat attribute mapping attached to the
cell-id column, with each attribute possibly absent (§6). -/
structure GridAttrs where
  grid_name : Option String
  level : Option Int
  indexing_scheme : Option String
deriving DecidableEq

/-- Modelled from the spec: `from_attributes(mapping) -> GridInfo`, failing
with `InvalidGridAttributes` when required keys are missing or out of
range (§4.1); `indexing_scheme` is required exactly for the scheme with
several conventions and ignored otherwise (§6). -/
def from_attributes (a : GridAttrs) : Except DggsError GridInfo :=
  match a.grid_name with
  | none => .error .InvalidGridAttributes
  | some gn =>
    match a.level with
    | none => .error .InvalidGridAttributes
    | some l =>
      if l < 0 then .error .InvalidGridAttributes
      else if gn = "h3" then
        if l.toNat ≤ maxLevel .h3 then .ok ⟨.h3, l.toNat, none⟩
        else .error .InvalidGridAttributes
      else if gn = "healpix" then
        if l.toNat ≤ maxLevel .healpix then
          match a.indexing_scheme with
          | some "ring" => .ok ⟨.healpix, l.toNat, some .ring⟩
          | some "nested" => .ok ⟨.healpix, l.toNat, some .nested⟩
          | _ => .error .InvalidGridAttributes
        else .error .InvalidGridAttributes
      else .error .InvalidGridAttributes

/-- Modelled from the spec: `to_attributes() -> mapping`, serializing a
GridInfo back to the flat attribute mapping (§4.1). -/
def to_attributes (g : GridInfo) : GridAttrs :=
  ⟨some g.scheme.gridName, some (g.level : Int), g.numbering.map IndexingScheme.schemeName⟩

/-- Modelled from the spec: the custom index bound to the cell-id column —
a GridInfo plus the backing array of cell ids (§3, §4.3). -/
structure CellIndex where
  gridInfo : GridInfo
  cellIds : List Nat
deriving DecidableEq

/-- Numbering convention the index resolves points with (the recorded one,
or the canonical nested layout for single-convention schemes). -/
def CellIndex.numbering (idx : CellIndex) : IndexingScheme :=
  idx.gridInfo.numbering.getD .nested

/-- Modelled from the spec: `from_cell_ids(cell_ids, grid_info)`, validating
every id against the grid and failing with `InvalidCellId` reporting the
offending positions (§4.3). -/
def CellIndex.from_cell_ids (ids : List Nat) (gi : GridInfo) : Except DggsError CellIndex :=
  let bad := (List.range ids.length).filter fun i => ! validateCell gi.scheme gi.level (ids.getD i 0)
  if bad.isEmpty then .ok ⟨gi, ids⟩ else .error (.InvalidCellId bad)

/-- Modelled from the spec: `select_by_cell_id(ids) -> positions`,
exact-match lookup; unmatched ids fail with `KeyNotFound` naming the
missing id(s) (§4.3). -/
def CellIndex.select_by_cell_id (idx : CellIndex) (ids : List Nat) : Except DggsError (List Nat) :=
  let missing := ids.filter fun q => ! idx.cellIds.contains q
  if missing.isEmpty then .ok (ids.map fun q => idx.cellIds.indexOf q)
  else .error (.KeyNotFound missing)

/-- Cell ids resolved from a batch of geographic points via the adapter. -/
def CellIndex.resolve_points (idx : CellIndex) (lats lons : List ℚ) : List Nat :=
  (lats.zip lons).map fun p =>
    point_to_cell idx.gridInfo.scheme p.1 p.2 idx.gridInfo.level idx.numbering

/-- Modelled from the spec: `select_by_point(lat[], lon[]) -> positions`;
mismatched input lengths fail with `ShapeMismatch`, otherwise each point is
resolved to a cell id and exact-matched against the held array (§4.3). -/
def CellIndex.select_by_point (idx : CellIndex) (lats lons : List ℚ) : Except DggsError (List Nat) :=
  if lats.length ≠ lons.length then .error .ShapeMismatch
  else idx.select_by_cell_id (idx.resolve_points lats lons)

/-- Modelled from the spec: `cell_centers()`, one center per held id,
order-preserving (§4.3). -/
def CellIndex.cell_centers (idx : CellIndex) : List ℚ × List ℚ :=
  let cs := idx.cellIds.map fun id =>
    cell_to_center idx.gridInfo.scheme idx.gridInfo.level idx.numbering id
  (cs.map Prod.fst, cs.map Prod.snd)

/-- An integer-valued coordinate column of the host dataset, with its
attribute mapping. -/
structure IntCoord where
  name : String
  values : List Nat
  attrs : GridAttrs
deriving DecidableEq

/-- A real-valued (degree) coordinate column of the host dataset. -/
structure RatCoord where
  name : String
  values : List ℚ
deriving DecidableEq

/-- A data variable of the host dataset, addressed row-wise by the cell
dimension. -/
structure DataVar where
  name : String
  values : List Int
deriving DecidableEq

/-- Modelled from the spec: the host container — coordinates and data
variables along the cell dimension plus an optionally bound custom
index (§2, §6). -/
structure Dataset where
  intCoords : List IntCoord
  ratCoords : List RatCoord
  dataVars : List DataVar
  index : Option CellIndex
deriving DecidableEq

/-- Modelled from the spec: `decode(dataset)` — read the attribute mapping
off the designated `cell_ids` coordinate, build the GridInfo and the
CellIndex, and bind the index, failing with `MissingGridAttributes` when
the column is absent (§4.4). -/
def decode (ds : Dataset) : Except DggsError Dataset :=
  match ds.intCoords.find? (fun c => c.name == "cell_ids") with
  | none => .error .MissingGridAttributes
  | some c =>
    match from_attributes c.attrs with
    | .error e => .error e
    | .ok gi =>
      match CellIndex.from_cell_ids c.values gi with
      | .error e => .error e
      | .ok idx => .ok { ds with index := some idx }

/-- Positional subsetting of every column of a dataset along the cell
dimension (the host container's take-by-positions primitive). -/
def Dataset.isel (ds : Dataset) (ps : List Nat) : Dataset :=
  { intCoords := ds.intCoords.map fun c => { c with values := ps.map fun p => c.values.getD p 0 }
    ratCoords := ds.ratCoords.map fun c => { c with values := ps.map fun p => c.values.getD p 0 }
    dataVars := ds.dataVars.map fun c => { c with values := ps.map fun p => c.values.getD p 0 }
    index := ds.index.map fun idx => { idx with cellIds := ps.map fun p => idx.cellIds.getD p 0 } }

/-- Modelled from the spec: dataset-level `cell_centers`, forwarding to the
bound index (§4.4). -/
def Dataset.cell_centers (ds : Dataset) : Except DggsError (List ℚ × List ℚ) :=
  match ds.index with
  | none => .error .MissingGridAttributes
  | some idx => .ok idx.cell_centers

/-- Modelled from the spec: `assign_latlon_coords()`, augmenting the dataset
with the derived center latitude/longitude columns (§4.3). -/
def Dataset.assign_latlon_coords (ds : Dataset) : Except DggsError Dataset :=
  match ds.cell_centers with
  | .error e => .error e
  | .ok (lats, lons) =>
    .ok { ds with ratCoords := ds.ratCoords ++ [⟨"latitude", lats⟩, ⟨"longitude", lons⟩] }

/-- Modelled from the spec: `sel_latlon` — resolve the query points through
the bound index and subset the dataset at the resulting positions (§4.4). -/
def Dataset.sel_latlon (ds : Dataset) (lats lons : List ℚ) : Except DggsError Dataset :=
  match ds.index with
  | none => .error .MissingGridAttributes
  | some idx =>
    match idx.select_by_point lats lons with
    | .error e => .error e
    | .ok ps => .ok (ds.isel ps)

/-- Value equality of two datasets: same coordinates and data variables
(names and values); the bound index is bookkeeping, not data. -/
def Dataset.EqValues (a b : Dataset) : Prop :=
  a.intCoords = b.intCoords ∧ a.ratCoords = b.ratCoords ∧ a.dataVars = b.dataVars

instance (a b : Dataset) : Decidable (a.EqValues b) := by
  unfold Dataset.EqValues; infer_instance

instance {ε α : Type} [DecidableEq ε] [DecidableEq α] : DecidableEq (Except ε α) :=
  fun x y =>
    match x, y with
    | .error a, .error b =>
      if h : a = b then isTrue (by rw [h]) else
        isFalse (fun hh => h (Except.error.inj hh))
    | .ok a, .ok b =>
      if h : a = b then isTrue (by rw [h]) else
        isFalse (fun hh => h (Except.ok.inj hh))
    | .error a, .ok b => isFalse (fun hh => Except.noConfusion hh)
    | .ok a, .error b => isFalse (fun hh => Except.noConfusion hh)

/-- Attribute mapping of the example HEALPix-like datasets below. -/
def exAttrs : GridAttrs := ⟨some "healpix", some 0, some "nested"⟩

/-- Grid description parsed from `exAttrs`. -/
def exGi : GridInfo := ⟨.healpix, 0, some .nested⟩

/-- A level-0 HEALPix-like dataset with two distinct cell ids. -/
def exDs : Dataset := ⟨[⟨"cell_ids", [5, 6], exAttrs⟩], [], [⟨"air", [10, 20]⟩], none⟩

/-- `exDs` with its cell index bound (the decode result). -/
def exDs2 : Dataset :=
  ⟨[⟨"cell_ids", [5, 6], exAttrs⟩], [], [⟨"air", [10, 20]⟩], some ⟨exGi, [5, 6]⟩⟩

/-- A level-0 HEALPix-like dataset holding the SAME cell id twice, with
different data at the two rows. -/
def cexDs : Dataset := ⟨[⟨"cell_ids", [5, 5], exAttrs⟩], [], [⟨"air", [10, 20]⟩], none⟩

/-- `cexDs` with its cell index bound (the decode result). -/
def cexDs2 : Dataset :=
  ⟨[⟨"cell_ids", [5, 5], exAttrs⟩], [], [⟨"air", [10, 20]⟩], some ⟨exGi, [5, 5]⟩⟩

/-- What selecting `cexDs2` at its own duplicated cell centers produces:
both rows resolve to the first matching position, so the second row's data
is replaced by the first row's. -/
def cexRes : Dataset :=
  ⟨[⟨"cell_ids", [5, 5], exAttrs⟩], [], [⟨"air", [10, 10]⟩], some ⟨exGi, [5, 5]⟩⟩

theorem nrows_pos (s : GridScheme) (l : Nat) : 0 < nrows s l := by
  cases s <;> simp [nrows]

theorem ncols_pos (s : GridScheme) (l : Nat) : 0 < ncols s l := by
  cases s <;> simp [ncols]

theorem numCells_pos (s : GridScheme) (l : Nat) : 0 < numCells s l :=
  Nat.mul_pos (nrows_pos s l) (ncols_pos s l)

theorem lonNormalize_nonneg (x : ℚ) : 0 ≤ lonNormalize x := by
  have h := Int.floor_le (x / 360)
  rw [le_div_iff₀ (by norm_num : (0:ℚ) < 360)] at h
  unfold lonNormalize
  linarith

theorem lonNormalize_lt (x : ℚ) : lonNormalize x < 360 := by
  have h := Int.lt_floor_add_one (x / 360)
  rw [div_lt_iff₀ (by norm_num : (0:ℚ) < 360)] at h
  unfold lonNormalize
  linarith

theorem lonNormalize_eq_self {x : ℚ} (h0 : 0 ≤ x) (h1 : x < 360) :
    lonNormalize x = x := by
  have hf : ⌊x / 360⌋ = 0 := by
    rw [Int.floor_eq_zero_iff]
    constructor
    · positivity
    · rw [div_lt_one (by norm_num : (0:ℚ) < 360)]; simpa using h1
  simp [lonNormalize, hf]

theorem floor_natCast_add_half (k : Nat) : ⌊((k : ℚ) + 1/2)⌋ = k := by
  rw [show ((k : ℚ) + 1/2) = ((k : ℤ) : ℚ) + 1/2 by push_cast; ring,
    Int.floor_int_add]
  norm_num

/-- The raw layout always resolves a point to a valid cell position. -/
theorem rectPointToCell_lt (rows cols : Nat) (hr : 0 < rows) (hc : 0 < cols)
    (lat lon : ℚ) : rectPointToCell rows cols lat lon < rows * cols := by
  unfold rectPointToCell
  split
  · exact Nat.mul_pos hr hc
  · split
    · exact Nat.mul_lt_mul_of_lt_of_le (Nat.sub_lt hr Nat.one_pos) le_rfl hc
    · rename_i h90 hm90
      have hlat : lat < 90 := lt_of_not_le h90
      have hlat2 : -90 < lat := lt_of_not_le hm90
      have hrow : (⌊(90 - lat) / 180 * (rows : ℚ)⌋).toNat < rows := by
        have hq1 : (90 - lat) / 180 < 1 := by
          rw [div_lt_one (by norm_num : (0:ℚ) < 180)]; linarith
        have hfl : ⌊(90 - lat) / 180 * (rows : ℚ)⌋ < (rows : ℤ) := by
          rw [Int.floor_lt]
          push_cast
          have hrQ : (0:ℚ) < rows := by exact_mod_cast hr
          nlinarith
        omega
      have hcol : (⌊lonNormalize lon / 360 * (cols : ℚ)⌋).toNat < cols := by
        have hq1 : lonNormalize lon / 360 < 1 := by
          rw [div_lt_one (by norm_num : (0:ℚ) < 360)]
          exact lonNormalize_lt lon
        have hfl : ⌊lonNormalize lon / 360 * (cols : ℚ)⌋ < (cols : ℤ) := by
          rw [Int.floor_lt]
          push_cast
          have hcQ : (0:ℚ) < cols := by exact_mod_cast hc
          nlinarith
        omega
      calc (⌊(90 - lat) / 180 * (rows : ℚ)⌋).toNat * cols
            + (⌊lonNormalize lon / 360 * (cols : ℚ)⌋).toNat
          < ((⌊(90 - lat) / 180 * (rows : ℚ)⌋).toNat + 1) * cols := by
            rw [Nat.succ_mul]; exact Nat.add_lt_add_left hcol _
        _ ≤ rows * cols := Nat.mul_le_mul_right _ hrow

/-- Resolving the center of a valid cell of the raw layout recovers that
cell. -/
theorem rectPointToCell_center (rows cols id : Nat) (hr : 0 < rows)
    (hc : 0 < cols) (hid : id < rows * cols) :
    rectPointToCell rows cols (rectCellToCenter rows cols id).1
      (rectCellToCenter rows cols id).2 = id := by
  have hrQ : (0:ℚ) < rows := by exact_mod_cast hr
  have hcQ : (0:ℚ) < cols := by exact_mod_cast hc
  set r := id / cols with hrdef
  set c := id % cols with hcdef
  have hrlt : r < rows := Nat.div_lt_of_lt_mul (by rwa [Nat.mul_comm] at hid)
  have hclt : c < cols := Nat.mod_lt _ hc
  have hrQ2 : ((r : ℚ) + 1/2) / rows < 1 := by
    rw [div_lt_one hrQ]
    have : (r : ℚ) + 1 ≤ rows := by exact_mod_cast Nat.succ_le_of_lt hrlt
    linarith
  have hrQ0 : (0:ℚ) < ((r : ℚ) + 1/2) / rows := by positivity
  have hcQ2 : ((c : ℚ) + 1/2) / cols < 1 := by
    rw [div_lt_one hcQ]
    have : (c : ℚ) + 1 ≤ cols := by exact_mod_cast Nat.succ_le_of_lt hclt
    linarith
  have hcQ0 : (0:ℚ) ≤ ((c : ℚ) + 1/2) / cols * 360 := by positivity
  have hlon : ((c : ℚ) + 1/2) / cols * 360 < 360 := by nlinarith
  unfold rectCellToCenter rectPointToCell
  simp only [← hrdef, ← hcdef]
  rw [if_neg (by nlinarith), if_neg (by nlinarith)]
  have key1 : (90 - (90 - ((r : ℚ) + 1/2) / rows * 180)) / 180 * rows
      = (r : ℚ) + 1/2 := by
    field_simp
    ring
  have key2 : lonNormalize (((c : ℚ) + 1/2) / cols * 360) / 360 * cols
      = (c : ℚ) + 1/2 := by
    rw [lonNormalize_eq_self hcQ0 hlon]
    field_simp
    ring
  rw [key1, key2, floor_natCast_add_half, floor_natCast_add_half]
  simp only [Int.toNat_natCast]
  rw [hrdef, hcdef]
  exact Nat.div_add_mod' id cols

theorem fromCanonical_lt (s : GridScheme) (num : IndexingScheme) (l id : Nat)
    (h : id < numCells s l) : fromCanonical s num l id < numCells s l := by
  cases s <;> cases num <;> simp [fromCanonical] <;> omega

theorem toCanonical_lt (s : GridScheme) (num : IndexingScheme) (l id : Nat)
    (h : id < numCells s l) : toCanonical s num l id < numCells s l := by
  cases s <;> cases num <;> simp [toCanonical] <;> omega

theorem fromCanonical_toCanonical (s : GridScheme) (num : IndexingScheme)
    (l id : Nat) (h : id < numCells s l) :
    fromCanonical s num l (toCanonical s num l id) = id := by
  cases s <;> cases num <;> simp [fromCanonical, toCanonical] <;> omega

theorem toCanonical_fromCanonical (s : GridScheme) (num : IndexingScheme)
    (l id : Nat) (h : id < numCells s l) :
    toCanonical s num l (fromCanonical s num l id) = id := by
  cases s <;> cases num <;> simp [fromCanonical, toCanonical] <;> omega

/-- `point_to_cell` always yields a valid cell id. -/
theorem point_to_cell_valid (s : GridScheme) (lat lon : ℚ) (l : Nat)
    (num : IndexingScheme) :
    validateCell s l (point_to_cell s lat lon l num) = true := by
  unfold validateCell point_to_cell
  simp only [decide_eq_true_eq]
  exact fromCanonical_lt s num l _
    (rectPointToCell_lt _ _ (nrows_pos s l) (ncols_pos s l) lat lon)

/-- Inverse consistency of the model adapter: resolving a cell's own
center recovers the cell id, under the same numbering convention. -/
theorem point_to_cell_center (s : GridScheme) (l : Nat) (num : IndexingScheme)
    (id : Nat) (h : id < numCells s l) :
    point_to_cell s (cell_to_center s l num id).1 (cell_to_center s l num id).2
      l num = id := by
  unfold point_to_cell cell_to_center
  rw [rectPointToCell_center _ _ _ (nrows_pos s l) (ncols_pos s l)
    (toCanonical_lt s num l id h)]
  exact fromCanonical_toCanonical s num l id h

/-- C1: `point_to_cell` is deterministic — identical `(lat, lon, level,
numbering)` inputs yield identical cell ids — and a batched call is
invariant under partitioning of the input array: resolving a concatenation
of chunks equals concatenating the per-chunk (sequential) resolutions, so
parallel execution equals sequential execution element-wise. -/
theorem point_to_cell_deterministic :
    (∀ (s : GridScheme) (lat lon lat' lon' : ℚ) (l l' : Nat)
      (num num' : IndexingScheme), lat = lat' → lon = lon' → l = l' →
      num = num' → point_to_cell s lat lon l num = point_to_cell s lat' lon' l' num')
    ∧ ∀ (s : GridScheme) (xs ys : List (ℚ × ℚ)) (l : Nat) (num : IndexingScheme),
      point_to_cell_batch s (xs ++ ys) l num =
        point_to_cell_batch s xs l num ++ point_to_cell_batch s ys l num := by
  constructor
  · intro s lat lon lat' lon' l l' num num' h1 h2 h3 h4
    rw [h1, h2, h3, h4]
  · intro s xs ys l num
    simp [point_to_cell_batch]

theorem point_to_cell_deterministic_witness :
    point_to_cell .healpix 10 20 1 .nested = point_to_cell .healpix 10 20 1 .nested ∧
    point_to_cell_batch .healpix ([(10, 20)] ++ [(30, 40)]) 1 .nested =
      point_to_cell_batch .healpix [(10, 20)] 1 .nested ++
        point_to_cell_batch .healpix [(30, 40)] 1 .nested :=
  ⟨point_to_cell_deterministic.1 .healpix 10 20 10 20 1 1 .nested .nested rfl rfl rfl rfl,
   point_to_cell_deterministic.2 .healpix [(10, 20)] [(30, 40)] 1 .nested⟩

/-- C3: attribute round trip — for every valid GridInfo `g`,
`from_attributes (to_attributes g) = g` (structural equality), i.e.
`to_attributes` is inverted exactly by `from_attributes`. -/
theorem from_to_attributes (g : GridInfo) (h : g.Valid) :
    from_attributes (to_attributes g) = .ok g := by
  obtain ⟨hl, hnum⟩ := h
  obtain ⟨s, l, num⟩ := g
  cases s with
  | h3 =>
    have hn : num = none := by
      cases num with
      | none => rfl
      | some v => simp at hnum
    subst hn
    simp only [maxLevel] at hl
    simp [from_attributes, to_attributes, GridScheme.gridName, maxLevel, hl]
  | healpix =>
    obtain ⟨v, hv⟩ : ∃ v, num = some v := by
      cases num with
      | none => simp at hnum
      | some v => exact ⟨v, rfl⟩
    subst hv
    simp only [maxLevel] at hl
    cases v <;>
      simp [from_attributes, to_attributes, GridScheme.gridName,
        IndexingScheme.schemeName, maxLevel, hl]

theorem from_to_attributes_witness :
    from_attributes (to_attributes ⟨.healpix, 4, some .nested⟩) =
      .ok ⟨.healpix, 4, some .nested⟩ :=
  from_to_attributes ⟨.healpix, 4, some .nested⟩ (by decide)

/-- C4: numbering conversion is invertible — for the scheme defining two
conventions, converting an array of valid ids from `a` to `b` and back
yields the original array; a scheme without multiple conventions fails
with `UnsupportedConversion`. -/
theorem convert_numbering_round_trip :
    (∀ (l : Nat) (ids : List Nat) (a b : IndexingScheme),
      (∀ id ∈ ids, validateCell .healpix l id = true) →
      ∃ mid, convert_numbering .healpix l ids a b = .ok mid ∧
        convert_numbering .healpix l mid b a = .ok ids)
    ∧ ∀ (l : Nat) (ids : List Nat) (a b : IndexingScheme),
      convert_numbering .h3 l ids a b = .error .UnsupportedConversion := by
  constructor
  · intro l ids a b hvalid
    refine ⟨_, rfl, ?_⟩
    simp only [convert_numbering, List.map_map, Except.ok.injEq]
    have step : ∀ id ∈ ids,
        (fromCanonical .healpix a l ∘ toCanonical .healpix b l ∘
          fromCanonical .healpix b l ∘ toCanonical .healpix a l) id = id := by
      intro id hid
      have h1 : id < numCells .healpix l := by
        have := hvalid id hid
        simpa [validateCell] using this
      have h2 : toCanonical .healpix a l id < numCells .healpix l :=
        toCanonical_lt _ _ _ _ h1
      simp only [Function.comp]
      rw [toCanonical_fromCanonical _ _ _ _ h2, fromCanonical_toCanonical _ _ _ _ h1]
    calc ids.map (fromCanonical .healpix a l ∘ toCanonical .healpix b l ∘
          fromCanonical .healpix b l ∘ toCanonical .healpix a l)
        = ids.map id := List.map_congr_left step
      _ = ids := List.map_id ids
  · intro l ids a b
    rfl

theorem convert_numbering_round_trip_witness :
    ∃ mid, convert_numbering .healpix 0 [0, 5, 11] .nested .ring = .ok mid ∧
      convert_numbering .healpix 0 mid .ring .nested = .ok [0, 5, 11] :=
  convert_numbering_round_trip.1 0 [0, 5, 11] .nested .ring (by decide)

/-- C5: exact-match selection — when every queried id is present in the
held array, `select_by_cell_id` returns, in the order the queried ids were
given, a position of each queried id (the held array holds the queried id
at the returned position); when some queried id is absent it fails with
`KeyNotFound` naming exactly the missing ids. -/
theorem select_by_cell_id_spec (idx : CellIndex) (ids : List Nat) :
    ((∀ q ∈ ids, q ∈ idx.cellIds) →
      ∃ ps, idx.select_by_cell_id ids = .ok ps ∧ ps.length = ids.length ∧
        ∀ i, i < ids.length → ps.getD i 0 < idx.cellIds.length ∧
          idx.cellIds.getD (ps.getD i 0) 0 = ids.getD i 0)
    ∧ ((∃ q ∈ ids, q ∉ idx.cellIds) →
      ∃ missing, idx.select_by_cell_id ids = .error (.KeyNotFound missing) ∧
        missing ≠ [] ∧ ∀ q, q ∈ missing ↔ q ∈ ids ∧ q ∉ idx.cellIds) := by
  constructor
  · intro hall
    have hmiss : (ids.filter fun q => ! idx.cellIds.contains q) = [] := by
      rw [List.filter_eq_nil_iff]
      intro q hq
      simp [hall q hq]
    refine ⟨ids.map fun q => idx.cellIds.indexOf q, ?_, by simp, ?_⟩
    · unfold CellIndex.select_by_cell_id
      simp [hmiss]
      exact hall
    · intro i hi
      have hqmem : ids.getD i 0 ∈ ids := by
        rw [List.getD_eq_getElem _ _ hi]
        exact List.getElem_mem hi
      have hmem : ids.getD i 0 ∈ idx.cellIds := hall _ hqmem
      have hidx : idx.cellIds.indexOf (ids.getD i 0) < idx.cellIds.length :=
        List.indexOf_lt_length.mpr hmem
      have hgetD : (ids.map fun q => idx.cellIds.indexOf q).getD i 0 =
          idx.cellIds.indexOf (ids.getD i 0) := by
        rw [List.getD_eq_getElem _ _ (by simpa using hi),
          List.getElem_map, List.getD_eq_getElem _ _ hi]
      refine ⟨by rwa [hgetD], ?_⟩
      rw [hgetD, List.getD_eq_getElem _ _ hidx]
      exact List.indexOf_get hidx
  · intro ⟨q, hq, hqnot⟩
    have hmem : q ∈ ids.filter fun q => ! idx.cellIds.contains q := by
      simp [List.mem_filter, hq, hqnot]
    have hne : (ids.filter fun q => ! idx.cellIds.contains q) ≠ [] :=
      List.ne_nil_of_mem hmem
    refine ⟨_, ?_, hne, ?_⟩
    · unfold CellIndex.select_by_cell_id
      simp only [List.isEmpty_iff]
      rw [if_neg hne]
    · intro q'
      simp [List.mem_filter]

theorem select_by_cell_id_spec_witness :
    (∃ ps, CellIndex.select_by_cell_id ⟨⟨.h3, 4, none⟩, [7, 8, 9]⟩ [9, 7] = .ok ps ∧
      ps.length = 2 ∧ ∀ i, i < 2 → ps.getD i 0 < 3 ∧
        [7, 8, 9].getD (ps.getD i 0) 0 = [9, 7].getD i 0) ∧
    ∃ missing, CellIndex.select_by_cell_id ⟨⟨.h3, 4, none⟩, [7, 8, 9]⟩ [9, 4] =
      .error (.KeyNotFound missing) ∧ missing ≠ [] ∧
      ∀ q, q ∈ missing ↔ q ∈ [9, 4] ∧ q ∉ [7, 8, 9] :=
  ⟨(select_by_cell_id_spec ⟨⟨.h3, 4, none⟩, [7, 8, 9]⟩ [9, 7]).1 (by decide),
   (select_by_cell_id_spec ⟨⟨.h3, 4, none⟩, [7, 8, 9]⟩ [9, 4]).2 ⟨4, by decide, by decide⟩⟩

/-- C6: `select_by_point` fails with `ShapeMismatch` on latitude/longitude
arrays of unequal length (no partial result), and, for equal-length
inputs, fails with `KeyNotFound` whenever some point's resolved cell id is
absent from the index, naming that id. -/
theorem select_by_point_spec (idx : CellIndex) (lats lons : List ℚ) :
    (lats.length ≠ lons.length →
      idx.select_by_point lats lons = .error .ShapeMismatch)
    ∧ (lats.length = lons.length →
      ∀ q ∈ idx.resolve_points lats lons, q ∉ idx.cellIds →
        ∃ missing, idx.select_by_point lats lons = .error (.KeyNotFound missing) ∧
          q ∈ missing) := by
  constructor
  · intro hne
    unfold CellIndex.select_by_point
    rw [if_pos hne]
  · intro heq q hq hqnot
    have hmem : q ∈ (idx.resolve_points lats lons).filter
        fun r => ! idx.cellIds.contains r := by
      simp [List.mem_filter, hq, hqnot]
    have hne : ((idx.resolve_points lats lons).filter
        fun r => ! idx.cellIds.contains r) ≠ [] := List.ne_nil_of_mem hmem
    refine ⟨_, ?_, hmem⟩
    unfold CellIndex.select_by_point CellIndex.select_by_cell_id
    rw [if_neg (by simp [heq])]
    simp only [List.isEmpty_iff]
    rw [if_neg hne]

theorem select_by_point_spec_witness :
    CellIndex.select_by_point ⟨⟨.healpix, 0, some .nested⟩, [5]⟩ [0, 0] [135] =
      .error .ShapeMismatch :=
  (select_by_point_spec ⟨⟨.healpix, 0, some .nested⟩, [5]⟩ [0, 0] [135]).1 (by decide)

/-- C7: decoding a dataset whose cell-id column lacks the `level`
attribute (or the `grid_name` attribute) fails at the decode boundary with
the specific grid-attribute error, not a generic failure. -/
theorem decode_missing_attribute (ds : Dataset) (c : IntCoord)
    (hfind : ds.intCoords.find? (fun c => c.name == "cell_ids") = some c)
    (hmiss : c.attrs.level = none ∨ c.attrs.grid_name = none) :
    decode ds = .error .InvalidGridAttributes := by
  have hfa : from_attributes c.attrs = .error .InvalidGridAttributes := by
    unfold from_attributes
    rcases hmiss with h | h
    · cases hg : c.attrs.grid_name <;> simp [h, hg]
    · simp [h]
  unfold decode
  simp only [hfind, hfa]

theorem decode_missing_attribute_witness :
    decode ⟨[⟨"cell_ids", [1, 2], ⟨some "h3", none, none⟩⟩], [], [], none⟩ =
      .error .InvalidGridAttributes :=
  decode_missing_attribute
    ⟨[⟨"cell_ids", [1, 2], ⟨some "h3", none, none⟩⟩], [], [], none⟩
    ⟨"cell_ids", [1, 2], ⟨some "h3", none, none⟩⟩ (by decide) (by decide)

/-- C9: implicit precondition of `decode` — it succeeds only when the
dataset has a coordinate literally named `cell_ids` whose attributes parse
to a GridInfo; when no coordinate has that exact name, the dataset is not
decoded and `decode` fails with `MissingGridAttributes`. -/
theorem decode_requires_cell_ids_coord (ds : Dataset) :
    (ds.intCoords.find? (fun c => c.name == "cell_ids") = none →
      decode ds = .error .MissingGridAttributes)
    ∧ ∀ ds', decode ds = .ok ds' →
      ∃ c, ds.intCoords.find? (fun c => c.name == "cell_ids") = some c ∧
        c.name = "cell_ids" ∧ ∃ gi, from_attributes c.attrs = .ok gi := by
  constructor
  · intro hnone
    unfold decode
    rw [hnone]
  · intro ds' hok
    unfold decode at hok
    cases hfind : ds.intCoords.find? (fun c => c.name == "cell_ids") with
    | none => rw [hfind] at hok; exact absurd hok (by simp)
    | some c =>
      simp only [hfind] at hok
      refine ⟨c, rfl, ?_, ?_⟩
      · have := List.find?_some hfind
        simpa using this
      · cases hfa : from_attributes c.attrs with
        | error e =>
          rw [hfa] at hok
          exact Except.noConfusion hok
        | ok gi => exact ⟨gi, rfl⟩

theorem decode_requires_cell_ids_coord_witness :
    decode ⟨[⟨"pixel_ids", [1, 2], ⟨some "h3", some 4, none⟩⟩], [], [], none⟩ =
      .error .MissingGridAttributes :=
  (decode_requires_cell_ids_coord
    ⟨[⟨"pixel_ids", [1, 2], ⟨some "h3", some 4, none⟩⟩], [], [], none⟩).1 (by decide)

/-- C10: frame property of `decode` — a successful decode changes no
data-variable values, no coordinate values and no attributes; it only
binds the custom index. -/
theorem decode_preserves_values (ds ds' : Dataset) (h : decode ds = .ok ds') :
    ds'.intCoords = ds.intCoords ∧ ds'.ratCoords = ds.ratCoords ∧
      ds'.dataVars = ds.dataVars ∧ ds'.index.isSome = true := by
  unfold decode at h
  cases hfind : ds.intCoords.find? (fun c => c.name == "cell_ids") with
  | none => rw [hfind] at h; exact absurd h (by simp)
  | some c =>
    simp only [hfind] at h
    cases hfa : from_attributes c.attrs with
    | error e =>
      simp only [hfa] at h
      exact Except.noConfusion h
    | ok gi =>
      simp only [hfa] at h
      cases hfc : CellIndex.from_cell_ids c.values gi with
      | error e =>
        simp only [hfc] at h
        exact Except.noConfusion h
      | ok idx =>
        simp only [hfc, Except.ok.injEq] at h
        subst h
        exact ⟨rfl, rfl, rfl, rfl⟩

theorem decode_preserves_values_witness :
    (Dataset.mk [⟨"cell_ids", [1, 2], ⟨some "h3", some 4, none⟩⟩] []
        [⟨"air", [10, 20]⟩] (some ⟨⟨.h3, 4, none⟩, [1, 2]⟩)).intCoords =
      (Dataset.mk [⟨"cell_ids", [1, 2], ⟨some "h3", some 4, none⟩⟩] []
        [⟨"air", [10, 20]⟩] none).intCoords ∧
    (Dataset.mk [⟨"cell_ids", [1, 2], ⟨some "h3", some 4, none⟩⟩] []
        [⟨"air", [10, 20]⟩] (some ⟨⟨.h3, 4, none⟩, [1, 2]⟩)).ratCoords =
      (Dataset.mk [⟨"cell_ids", [1, 2], ⟨some "h3", some 4, none⟩⟩] []
        [⟨"air", [10, 20]⟩] none).ratCoords ∧
    (Dataset.mk [⟨"cell_ids", [1, 2], ⟨some "h3", some 4, none⟩⟩] []
        [⟨"air", [10, 20]⟩] (some ⟨⟨.h3, 4, none⟩, [1, 2]⟩)).dataVars =
      (Dataset.mk [⟨"cell_ids", [1, 2], ⟨some "h3", some 4, none⟩⟩] []
        [⟨"air", [10, 20]⟩] none).dataVars ∧
    (Dataset.mk [⟨"cell_ids", [1, 2], ⟨some "h3", some 4, none⟩⟩] []
        [⟨"air", [10, 20]⟩] (some ⟨⟨.h3, 4, none⟩, [1, 2]⟩)).index.isSome = true :=
  decode_preserves_values
    (Dataset.mk [⟨"cell_ids", [1, 2], ⟨some "h3", some 4, none⟩⟩] []
      [⟨"air", [10, 20]⟩] none)
    (Dataset.mk [⟨"cell_ids", [1, 2], ⟨some "h3", some 4, none⟩⟩] []
      [⟨"air", [10, 20]⟩] (some ⟨⟨.h3, 4, none⟩, [1, 2]⟩)) rfl

theorem lonNormalize_antimeridian : lonNormalize 180 = lonNormalize (-180) := by
  have h1 : ⌊(180 : ℚ) / 360⌋ = 0 := by norm_num
  have h2 : ⌊(-180 : ℚ) / 360⌋ = -1 := by norm_num
  rw [lonNormalize, lonNormalize, h1, h2]
  norm_num

/-- C8: for every scheme, level and numbering convention, the poles and
the antimeridian resolve to exactly one well-defined valid cell id: both
spellings of the antimeridian give the same id at every latitude, every
longitude gives the same id at each pole, and the result is always a valid
cell id (the function is total — no NaN, no undefined value). -/
theorem point_to_cell_seams (s : GridScheme) (l : Nat) (num : IndexingScheme) :
    (∀ lon lon' : ℚ, point_to_cell s 90 lon l num = point_to_cell s 90 lon' l num)
    ∧ (∀ lon lon' : ℚ,
        point_to_cell s (-90) lon l num = point_to_cell s (-90) lon' l num)
    ∧ (∀ lat : ℚ, point_to_cell s lat 180 l num = point_to_cell s lat (-180) l num)
    ∧ ∀ lat lon : ℚ, validateCell s l (point_to_cell s lat lon l num) = true := by
  refine ⟨?_, ?_, ?_, fun lat lon => point_to_cell_valid s lat lon l num⟩
  · intro lon lon'
    unfold point_to_cell rectPointToCell
    norm_num
  · intro lon lon'
    unfold point_to_cell rectPointToCell
    norm_num
  · intro lat
    unfold point_to_cell rectPointToCell
    rw [lonNormalize_antimeridian]

/-- A successful `from_cell_ids` returns the wrapped index and certifies
every held id valid. -/
theorem from_cell_ids_ok (ids : List Nat) (gi : GridInfo) (idx : CellIndex)
    (h : CellIndex.from_cell_ids ids gi = .ok idx) :
    idx = ⟨gi, ids⟩ ∧ ∀ id ∈ ids, validateCell gi.scheme gi.level id = true := by
  unfold CellIndex.from_cell_ids at h
  by_cases hbad : ((List.range ids.length).filter
      fun i => ! validateCell gi.scheme gi.level (ids.getD i 0)).isEmpty = true
  · rw [if_pos hbad] at h
    refine ⟨by cases h; rfl, ?_⟩
    rw [List.isEmpty_iff, List.filter_eq_nil_iff] at hbad
    intro id hid
    obtain ⟨i, hi, hget⟩ := List.mem_iff_getElem.mp hid
    have := hbad i (List.mem_range.mpr hi)
    rw [List.getD_eq_getElem _ _ hi, hget] at this
    simpa using this
  · rw [if_neg hbad] at h
    exact Except.noConfusion h

/-- Inversion of a successful decode: the `cell_ids` coordinate was found,
its attributes parsed, its values validated, and the result is the input
dataset with the built index bound. -/
theorem decode_ok_inv (ds ds' : Dataset) (h : decode ds = .ok ds') :
    ∃ c, ds.intCoords.find? (fun c => c.name == "cell_ids") = some c ∧
      ∃ gi, from_attributes c.attrs = .ok gi ∧
        (∀ id ∈ c.values, validateCell gi.scheme gi.level id = true) ∧
        ds' = { ds with index := some ⟨gi, c.values⟩ } := by
  unfold decode at h
  cases hfind : ds.intCoords.find? (fun c => c.name == "cell_ids") with
  | none => rw [hfind] at h; exact Except.noConfusion h
  | some c =>
    simp only [hfind] at h
    cases hfa : from_attributes c.attrs with
    | error e =>
      simp only [hfa] at h
      exact Except.noConfusion h
    | ok gi =>
      simp only [hfa] at h
      cases hfc : CellIndex.from_cell_ids c.values gi with
      | error e =>
        simp only [hfc] at h
        exact Except.noConfusion h
      | ok idx =>
        simp only [hfc, Except.ok.injEq] at h
        obtain ⟨hidx, hvalid⟩ := from_cell_ids_ok c.values gi idx hfc
        exact ⟨c, rfl, gi, hfa, hvalid, by rw [← h, hidx]⟩

theorem map_getD_range {α : Type} (l : List α) (d : α) :
    (List.range l.length).map (fun p => l.getD p d) = l := by
  apply List.ext_getElem
  · simp
  · intro i h1 h2
    have hi : i < l.length := by simpa using h1
    rw [List.getElem_map, List.getElem_range, List.getD_eq_getElem _ _ hi]

/-- Selecting a duplicate-free index by its own held ids returns the
identity positions, in order. -/
theorem select_by_cell_id_self (idx : CellIndex) (hnd : idx.cellIds.Nodup) :
    idx.select_by_cell_id idx.cellIds = .ok (List.range idx.cellIds.length) := by
  have hmiss : (idx.cellIds.filter fun q => ! idx.cellIds.contains q) = [] := by
    rw [List.filter_eq_nil_iff]
    intro q hq
    simp [hq]
  unfold CellIndex.select_by_cell_id
  simp only [hmiss, List.isEmpty_nil, if_pos]
  congr 1
  apply List.ext_getElem
  · simp
  · intro i h1 h2
    have hi : i < idx.cellIds.length := by simpa using h1
    simp only [List.getElem_map, List.getElem_range]
    have := List.get_indexOf hnd ⟨i, hi⟩
    simpa using this

/-- C2 (amended): closed-loop round trip — for a decoded dataset whose
cell ids are pairwise distinct and whose columns all span the cell
dimension, resolving the derived cell-center latitudes/longitudes through
`sel_latlon` selects every original cell id and returns a dataset with the
same ids, same order and same data as the original. -/
theorem decode_centers_round_trip (ds ds' : Dataset) (idx : CellIndex)
    (lats lons : List ℚ)
    (hdec : decode ds = .ok ds')
    (hidx : ds'.index = some idx)
    (hnd : idx.cellIds.Nodup)
    (hwfInt : ∀ c ∈ ds.intCoords, c.values.length = idx.cellIds.length)
    (hwfRat : ∀ c ∈ ds.ratCoords, c.values.length = idx.cellIds.length)
    (hwfDat : ∀ c ∈ ds.dataVars, c.values.length = idx.cellIds.length)
    (hc : ds'.cell_centers = .ok (lats, lons)) :
    ∃ r, ds'.sel_latlon lats lons = .ok r ∧ r.EqValues ds := by
  obtain ⟨c, hfind, gi, hfa, hvalid, hds'⟩ := decode_ok_inv ds ds' hdec
  subst hds'
  have hidx2 : idx = ⟨gi, c.values⟩ := by
    simpa using hidx.symm
  subst hidx2
  have hcc : CellIndex.cell_centers ⟨gi, c.values⟩ = (lats, lons) := by
    unfold Dataset.cell_centers at hc
    exact Except.ok.inj hc
  have hvalid2 : ∀ id ∈ c.values, id < numCells gi.scheme gi.level := by
    intro id hid
    have := hvalid id hid
    simpa [validateCell] using this
  unfold CellIndex.cell_centers at hcc
  obtain ⟨hlats, hlons⟩ := Prod.mk.injEq .. |>.mp hcc
  have hlatlen : lats.length = c.values.length := by
    rw [← hlats]; simp
  have hlonlen : lons.length = c.values.length := by
    rw [← hlons]; simp
  have hres : CellIndex.resolve_points ⟨gi, c.values⟩ lats lons = c.values := by
    unfold CellIndex.resolve_points
    rw [← hlats, ← hlons, List.zip_map']
    apply List.ext_getElem
    · simp
    · intro i h1 h2
      simp only [List.getElem_map]
      exact point_to_cell_center gi.scheme gi.level _ _
        (hvalid2 _ (List.getElem_mem h2))
  have hsel : CellIndex.select_by_point ⟨gi, c.values⟩ lats lons =
      .ok (List.range c.values.length) := by
    unfold CellIndex.select_by_point
    rw [if_neg (by rw [hlatlen, hlonlen]; simp), hres]
    exact select_by_cell_id_self ⟨gi, c.values⟩ hnd
  refine ⟨Dataset.isel
      { intCoords := ds.intCoords, ratCoords := ds.ratCoords,
        dataVars := ds.dataVars, index := some ⟨gi, c.values⟩ }
      (List.range c.values.length), ?_, ?_, ?_, ?_⟩
  · unfold Dataset.sel_latlon
    simp only [hsel]
  · simp only [Dataset.isel]
    calc ds.intCoords.map (fun c0 => { c0 with
          values := (List.range c.values.length).map fun p => c0.values.getD p 0 })
        = ds.intCoords.map id := List.map_congr_left (by
          intro c' hc'
          simp only [id]
          rw [← hwfInt c' hc', map_getD_range])
      _ = ds.intCoords := List.map_id _
  · simp only [Dataset.isel]
    calc ds.ratCoords.map (fun c0 => { c0 with
          values := (List.range c.values.length).map fun p => c0.values.getD p 0 })
        = ds.ratCoords.map id := List.map_congr_left (by
          intro c' hc'
          simp only [id]
          rw [← hwfRat c' hc', map_getD_range])
      _ = ds.ratCoords := List.map_id _
  · simp only [Dataset.isel]
    calc ds.dataVars.map (fun c0 => { c0 with
          values := (List.range c.values.length).map fun p => c0.values.getD p 0 })
        = ds.dataVars.map id := List.map_congr_left (by
          intro c' hc'
          simp only [id]
          rw [← hwfDat c' hc', map_getD_range])
      _ = ds.dataVars := List.map_id _

theorem ptc_healpix0_135 : point_to_cell .healpix 0 135 0 .nested = 5 := by
  unfold point_to_cell rectPointToCell fromCanonical nrows ncols
  rw [lonNormalize_eq_self (by norm_num) (by norm_num)]
  norm_num

theorem ptc_healpix0_225 : point_to_cell .healpix 0 225 0 .nested = 6 := by
  unfold point_to_cell rectPointToCell fromCanonical nrows ncols
  rw [lonNormalize_eq_self (by norm_num) (by norm_num)]
  norm_num
  all_goals omega

theorem centers_eval5 : cell_to_center .healpix 0 .nested 5 = (0, 135) := by
  unfold cell_to_center rectCellToCenter toCanonical nrows ncols
  norm_num

theorem centers_eval6 : cell_to_center .healpix 0 .nested 6 = (0, 225) := by
  unfold cell_to_center rectCellToCenter toCanonical nrows ncols
  norm_num

theorem closed_loop_duplicate_ids_cex :
    decode cexDs = .ok cexDs2 ∧
    cexDs2.cell_centers = .ok ([0, 0], [135, 135]) ∧
    cexDs2.sel_latlon [0, 0] [135, 135] = .ok cexRes ∧
    ¬ cexRes.EqValues cexDs := by
  refine ⟨rfl, ?_, ?_, by decide⟩
  · unfold Dataset.cell_centers cexDs2
    simp [CellIndex.cell_centers, CellIndex.numbering, exGi, centers_eval5]
  · have hres : CellIndex.resolve_points ⟨exGi, [5, 5]⟩ [0, 0] [135, 135] = [5, 5] := by
      simp [CellIndex.resolve_points, CellIndex.numbering, exGi, ptc_healpix0_135]
    have hsel : CellIndex.select_by_point ⟨exGi, [5, 5]⟩ [0, 0] [135, 135] =
        .ok [0, 0] := by
      unfold CellIndex.select_by_point
      rw [if_neg (by decide), hres]
      decide
    unfold Dataset.sel_latlon cexDs2
    simp only [hsel]
    rfl

theorem decode_centers_round_trip_witness :
    ∃ r, exDs2.sel_latlon [0, 0] [135, 225] = .ok r ∧ r.EqValues exDs := by
  apply decode_centers_round_trip exDs exDs2 ⟨exGi, [5, 6]⟩ [0, 0] [135, 225] rfl rfl
    (by decide) (by decide) (by decide) (by decide)
  unfold Dataset.cell_centers exDs2
  simp [CellIndex.cell_centers, CellIndex.numbering, exGi, centers_eval5, centers_eval6]

theorem point_to_cell_seams_witness :
    point_to_cell .healpix 90 0 4 .nested = point_to_cell .healpix 90 77 4 .nested ∧
    point_to_cell .healpix (-90) 0 4 .nested = point_to_cell .healpix (-90) 77 4 .nested ∧
    point_to_cell .healpix 33 180 4 .nested = point_to_cell .healpix 33 (-180) 4 .nested ∧
    validateCell .healpix 4 (point_to_cell .healpix 33 50 4 .nested) = true :=
  ⟨(point_to_cell_seams .healpix 4 .nested).1 0 77,
   (point_to_cell_seams .healpix 4 .nested).2.1 0 77,
   (point_to_cell_seams .healpix 4 .nested).2.2.1 33,
   (point_to_cell_seams .healpix 4 .nested).2.2.2 33 50⟩
